import Mathlib

/-!
Verification of the pipe-inspection robot and its telemetry service.

The development shallowly embeds the two sides of the system:

* the inspection client (`prog.py`): grid map, pressure sensor, crawler and
  inspection controller, including the stack-based traversal of
  `auto_inspect`;
* the telemetry service (`main.py` over `database.py`): the session /
  readings / commands / events store and the HTTP endpoints that guard it.

Python floats are modelled as rationals (`ℚ`), Python sets as `Finset`,
database tables as lists of typed rows, and the ambient randomness of the
pressure sensor as an oracle `ℕ → ℚ` consumed one index per reading.
Operations that raise (`ValueError`, `HTTPException`) return `Except`.
-/

/-- The `Direction` enum of `prog.py` (display strings are Russian in the source;
the constructors carry the identity, `Direction.value` the display string). -/
inductive Direction where
  | UP
  | DOWN
  | LEFT
  | RIGHT
  | UNKNOWN
deriving DecidableEq, Repr

/-- Display string of a `Direction` (the `value` of the Python enum). -/
def Direction.value : Direction → String
  | .UP => "ВВЕРХ"
  | .DOWN => "ВНИЗ"
  | .LEFT => "ВЛЕВО"
  | .RIGHT => "ВПРАВО"
  | .UNKNOWN => "НЕИЗВЕСТНО"

/-- The `PressureStatus` enum of `prog.py`. -/
inductive PressureStatus where
  | NORMAL
  | LEAK
  | HIGH
deriving DecidableEq, Repr

/-- Display string of a `PressureStatus`. -/
def PressureStatus.value : PressureStatus → String
  | .NORMAL => "НОРМА"
  | .LEAK => "УТЕЧКА"
  | .HIGH => "ВЫСОКОЕ"

/-- The `PipePoint` dataclass: integer coordinates, equality and hashing by
value. -/
structure PipePoint where
  x : ℤ
  y : ℤ
deriving DecidableEq, Repr

/-- Strict lexicographic order on the Python key `(p.y, p.x)` used by
`min(..., key=lambda p: (p.y, p.x))` in `auto_inspect`. -/
def yx_lt (p q : PipePoint) : Prop :=
  p.y < q.y ∨ (p.y = q.y ∧ p.x < q.x)

instance (p q : PipePoint) : Decidable (yx_lt p q) := by
  unfold yx_lt
  exact inferInstance

/-- Embeds `PressureSensor.get_pressure_status`: LEAK below `low - 5`, else HIGH
above the fixed constant 150, else NORMAL.  Raises `ValueError` when the
sensor was never calibrated (`calibration_data = none`). -/
def get_pressure_status (calibration_data : Option (ℚ × ℚ)) (pressure : ℚ) :
    Except String PressureStatus :=
  match calibration_data with
  | none => .error "Датчик не откалиброван!"
  | some (low, _) =>
    if pressure < low - 5 then .ok .LEAK
    else if pressure > 150 then .ok .HIGH
    else .ok .NORMAL

/-- Embeds `PressureSensor.read_pressure`: raises when uncalibrated; otherwise
draws a pseudo-random value.  The random draw is abstracted by the oracle
`ℕ → ℚ`; each successful reading consumes one oracle index. -/
def read_pressure (calibration_data : Option (ℚ × ℚ)) (oracle : ℕ → ℚ)
    (k : ℕ) : Except String (ℚ × ℕ) :=
  match calibration_data with
  | none => .error "Датчик не откалиброван!"
  | some _ => .ok (oracle k, k + 1)

/-- Embeds `Crawler._get_direction`: exact unit deltas, anything else UNKNOWN. -/
def get_direction (from_p to_p : PipePoint) : Direction :=
  let dx := to_p.x - from_p.x
  let dy := to_p.y - from_p.y
  if dx = 1 ∧ dy = 0 then .RIGHT
  else if dx = -1 ∧ dy = 0 then .LEFT
  else if dy = 1 ∧ dx = 0 then .DOWN
  else if dy = -1 ∧ dx = 0 then .UP
  else .UNKNOWN

/-- One telemetry record emitted by the client.  The HTTP payloads of
`prog.py` are modelled structurally: the rendered message / status strings
of the Python source embed exactly the carried fields. -/
inductive TelemetryRecord where
  /-- Record of `POST .../sensors` with `sensor_type`, `value`, `unit`. -/
  | sensor (sensor_type : String) (value : ℚ) (unit : String)
  /-- Record of `POST .../actuators` for movement (status renders the
  direction and target). -/
  | actuatorMove (direction : Direction) (target : PipePoint)
  /-- Record of `POST .../actuators` named `dir_...` with status `executed`. -/
  | actuatorDir (direction : Direction)
  /-- Record of `POST .../actuators` named `pressure_status` with command
  1.0 on NORMAL, else 0.0. -/
  | actuatorStatus (command : ℚ) (status : PressureStatus)
  /-- Record of `POST .../events` typed `leak_detected`, severity `error`;
  the message renders the point and pressure. -/
  | eventLeak (point : PipePoint) (pressure : ℚ)
  /-- Record of `POST .../events` typed `high_pressure`, severity `warning`. -/
  | eventHigh (point : PipePoint) (pressure : ℚ)
deriving DecidableEq, Repr

/-- Embeds `Crawler.move_to`: first-ever move is UNKNOWN, otherwise the direction
derived from the previous position; the position always becomes `target`.
Returns the direction, the new `current_position` and the emitted
telemetry records (two position readings, the movement command, and an
extra direction command unless UNKNOWN). -/
def move_to (current_position : Option PipePoint) (target : PipePoint) :
    Direction × Option PipePoint × List TelemetryRecord :=
  let direction :=
    match current_position with
    | none => Direction.UNKNOWN
    | some cur => get_direction cur target
  (direction, some target,
    [TelemetryRecord.sensor "position_x" (target.x : ℚ) "cell",
     TelemetryRecord.sensor "position_y" (target.y : ℚ) "cell",
     TelemetryRecord.actuatorMove direction target] ++
    (if direction ≠ Direction.UNKNOWN then [TelemetryRecord.actuatorDir direction] else []))

/-- The `PipeMap` class: grid data plus the `width`/`height` fields computed in
`__init__`. -/
structure PipeMap where
  map_data : List (List Char)
  width : ℕ
  height : ℕ
deriving DecidableEq, Repr

/-- Embeds `PipeMap.__init__`: stores the rows verbatim and derives
`width = len(map_data[0]) if map_data else 0`, `height = len(map_data)`.
No validation whatsoever is performed on the input. -/
def PipeMap.ofData (map_data : List (List Char)) : PipeMap :=
  { map_data := map_data
    width := (map_data.headD []).length
    height := map_data.length }

/-- Embeds `PipeMap.is_pipe_point`: in bounds and the cell is `'X'`.  The cell
access is guarded by the bounds check in the source (short-circuit `and`),
so the `getD` defaults are never reached on rectangular grids. -/
def PipeMap.is_pipe_point (g : PipeMap) (point : PipePoint) : Prop :=
  0 ≤ point.x ∧ point.x < (g.width : ℤ) ∧
  0 ≤ point.y ∧ point.y < (g.height : ℤ) ∧
  ((g.map_data.getD point.y.toNat []).getD point.x.toNat '.') = 'X'

instance (g : PipeMap) (point : PipePoint) : Decidable (g.is_pipe_point point) := by
  unfold PipeMap.is_pipe_point
  exact inferInstance

/-- Embeds `PipeMap.get_all_pipe_points`: the comprehension
`[PipePoint(x, y) for y in range(height) for x in range(width) if is_pipe_point(...)]`. -/
def PipeMap.get_all_pipe_points (g : PipeMap) : List PipePoint :=
  (List.range g.height).flatMap fun y =>
    ((List.range g.width).map fun (x : ℕ) => PipePoint.mk (x : ℤ) (y : ℤ)).filter
      fun p => g.is_pipe_point p

/-- Embeds `PipeMap.get_neighbors`: the 4-directional neighbours that are pipe
points, built in the fixed order down, right, up, left. -/
def PipeMap.get_neighbors (g : PipeMap) (point : PipePoint) : List PipePoint :=
  ([(0, 1), (1, 0), (0, -1), (-1, 0)] : List (ℤ × ℤ)).filterMap fun d =>
    let n := PipePoint.mk (point.x + d.1) (point.y + d.2)
    if g.is_pipe_point n then some n else none

/-- Python `min(points, key=lambda p: (p.y, p.x))`: returns the first
element attaining the minimal key; raises `ValueError` (here: `none`) on
an empty list. -/
def min_by_yx (l : List PipePoint) : Option PipePoint :=
  match l with
  | [] => none
  | a :: rest => some (rest.foldl (fun best q => if yx_lt q best then q else best) a)

/-- Mutable state of the inspection run: the controller's `inspected` set
and `leaks` list, the crawler's `current_position`, and the sensor's
`calibration_data`. -/
structure InspectState where
  inspected : Finset PipePoint
  leaks : List (PipePoint × ℚ)
  current_position : Option PipePoint
  calibration_data : Option (ℚ × ℚ)
deriving DecidableEq

/-- Embeds `InspectionController.inspect_point`: no-op on an already-inspected
point; otherwise mark inspected, move the crawler, read and classify the
pressure, emit the reading/status records and — on LEAK or HIGH — the
corresponding event.  `k` is the oracle cursor of the pressure source;
errors (uncalibrated sensor) abort the call. -/
def inspect_point (st : InspectState) (point : PipePoint) (oracle : ℕ → ℚ)
    (k : ℕ) : Except String (InspectState × ℕ × List TelemetryRecord) :=
  if point ∈ st.inspected then .ok (st, k, [])
  else
    let inspected' := insert point st.inspected
    let m := move_to st.current_position point
    match read_pressure st.calibration_data oracle k with
    | .error e => .error e
    | .ok (pressure, k') =>
      match get_pressure_status st.calibration_data pressure with
      | .error e => .error e
      | .ok status =>
        let recs := m.2.2 ++
          [TelemetryRecord.sensor "pressure" pressure "bar",
           TelemetryRecord.actuatorStatus (if status = .NORMAL then 1 else 0) status]
        match status with
        | .LEAK =>
          .ok ({ st with inspected := inspected'
                         leaks := st.leaks ++ [(point, pressure)]
                         current_position := m.2.1 },
               k', recs ++ [TelemetryRecord.eventLeak point pressure])
        | .HIGH =>
          .ok ({ st with inspected := inspected'
                         current_position := m.2.1 },
               k', recs ++ [TelemetryRecord.eventHigh point pressure])
        | .NORMAL =>
          .ok ({ st with inspected := inspected'
                         current_position := m.2.1 },
               k', recs)

/-- The `while stack:` loop of `auto_inspect`.  The Python list used as a
stack (append / pop at the end) is represented top-first: pushing the
unvisited neighbours of `next_point` in source order and popping the last
one is `filtered.reverse ++ rest` with the head as the top.  `order` is
instrumentation recording the sequence of points inspected by the loop. -/
def auto_inspect_loop (g : PipeMap) (oracle : ℕ → ℚ) (st : InspectState)
    (visited : Finset PipePoint) (stack : List PipePoint) (k : ℕ)
    (order : List PipePoint) :
    Except String (InspectState × Finset PipePoint × List PipePoint) :=
  match stack with
  | [] => .ok (st, visited, order)
  | next_point :: rest =>
    if next_point ∈ visited then
      auto_inspect_loop g oracle st visited rest k order
    else
      match inspect_point st next_point oracle k with
      | .error e => .error e
      | .ok (st', k', _) =>
        auto_inspect_loop g oracle st' (insert next_point visited)
          (((g.get_neighbors next_point).filter
              fun n => n ∉ insert next_point visited).reverse ++ rest)
          k' (order ++ [next_point])
termination_by
  (((g.get_all_pipe_points.toFinset ∪ stack.toFinset) \ visited).card, stack.length)
decreasing_by
· apply Prod.Lex.right'
  · apply Finset.card_le_card
    intro z hz
    simp only [Finset.mem_sdiff, Finset.mem_union, List.toFinset_cons,
      Finset.mem_insert, List.mem_toFinset] at hz ⊢
    tauto
  · simp
· apply Prod.Lex.left
  have key : ∀ (gg : PipeMap) (pt : PipePoint) (vv : Finset PipePoint)
      (rs : List PipePoint), pt ∉ vv →
      ((gg.get_all_pipe_points.toFinset ∪
          (((gg.get_neighbors pt).filter fun n => n ∉ insert pt vv).reverse ++
            rs).toFinset) \ insert pt vv).card <
        ((gg.get_all_pipe_points.toFinset ∪ (pt :: rs).toFinset) \ vv).card := by
    intro gg pt vv rs hpt
    have hmem_pt : pt ∈ (gg.get_all_pipe_points.toFinset ∪ (pt :: rs).toFinset) \ vv := by
      simp [hpt]
    have hsub : (gg.get_all_pipe_points.toFinset ∪
          (((gg.get_neighbors pt).filter fun n => n ∉ insert pt vv).reverse ++
            rs).toFinset) \ insert pt vv ⊆
        ((gg.get_all_pipe_points.toFinset ∪ (pt :: rs).toFinset) \ vv).erase pt := by
      intro z hz
      simp only [Finset.mem_sdiff, Finset.mem_union, List.mem_toFinset,
        List.mem_append, List.mem_reverse, List.mem_filter, Finset.mem_insert,
        not_or, Finset.mem_erase, List.mem_cons, decide_eq_true_eq] at hz ⊢
      obtain ⟨hpool, hne, hnv⟩ := hz
      refine ⟨hne, ?_, hnv⟩
      rcases hpool with h | h
      · exact Or.inl h
      · rcases h with ⟨hn, _⟩ | h
        · -- a pushed neighbour is a pipe point, hence in `get_all_pipe_points`
          left
          have hp : gg.is_pipe_point z := by
            simp only [PipeMap.get_neighbors, List.mem_filterMap] at hn
            obtain ⟨d, _, hd⟩ := hn
            split at hd
            · cases hd
              assumption
            · cases hd
          obtain ⟨hx0, hxw, hy0, hyh, hcell⟩ := hp
          unfold PipeMap.get_all_pipe_points
          rw [List.mem_flatMap]
          refine ⟨z.y.toNat, List.mem_range.mpr ((Int.toNat_lt hy0).mpr hyh), ?_⟩
          rw [List.mem_filter]
          constructor
          · rw [List.mem_map]
            refine ⟨z.x.toNat, List.mem_range.mpr ((Int.toNat_lt hx0).mpr hxw), ?_⟩
            cases z with
            | mk zx zy =>
              simp only [PipePoint.mk.injEq]
              exact ⟨Int.toNat_of_nonneg hx0, Int.toNat_of_nonneg hy0⟩
          · simpa using ⟨hx0, hxw, hy0, hyh, hcell⟩
        · exact Or.inr (Or.inr h)
    calc ((gg.get_all_pipe_points.toFinset ∪
            (((gg.get_neighbors pt).filter fun n => n ∉ insert pt vv).reverse ++
              rs).toFinset) \ insert pt vv).card
        ≤ (((gg.get_all_pipe_points.toFinset ∪ (pt :: rs).toFinset) \ vv).erase pt).card :=
          Finset.card_le_card hsub
      _ < ((gg.get_all_pipe_points.toFinset ∪ (pt :: rs).toFinset) \ vv).card :=
          Finset.card_erase_lt_of_mem hmem_pt
  exact key g _ visited rest (by assumption)

/-- Embeds `InspectionController.auto_inspect`: find the start point with the
smallest `(y, x)` key (Python `min` raises on an empty list), inspect it,
then run the stack loop seeded with the start's neighbours, the copied
`inspected` set as the visited-tracking set, and the stack top at the end
of the Python list.  Returns the final state, the visited-tracking set and
the sequence of points inspected during the run (instrumentation). -/
def auto_inspect (g : PipeMap) (st : InspectState) (oracle : ℕ → ℚ) :
    Except String (InspectState × Finset PipePoint × List PipePoint) :=
  match min_by_yx g.get_all_pipe_points with
  | none => .error "ValueError: min() arg is an empty sequence"
  | some start =>
    match inspect_point st start oracle 0 with
    | .error e => .error e
    | .ok (st₁, k₁, _) =>
      auto_inspect_loop g oracle st₁ st₁.inspected
        (g.get_neighbors start).reverse k₁ [start]

/-- Reachability along the moves of the traversal: repeatedly stepping
from a point to one of its pipe neighbours. -/
def Reach (g : PipeMap) (start p : PipePoint) : Prop :=
  Relation.ReflTransGen (fun a b => b ∈ g.get_neighbors a) start p

/-- A row of the `sessions` table. -/
structure SessionRow where
  id : ℕ
  variant_id : ℤ
  started_at : String
  ended_at : Option String
  status : String
deriving DecidableEq, Repr

/-- A row of the `sensor_readings` table. -/
structure SensorRow where
  session_id : ℕ
  sensor_type : String
  timestamp : String
  value : ℚ
  unit : String
deriving DecidableEq, Repr

/-- A row of the `actuator_commands` table. -/
structure CommandRow where
  session_id : ℕ
  actuator_type : String
  timestamp : String
  command : ℚ
  status : String
deriving DecidableEq, Repr

/-- A row of the `events` table. -/
structure EventRow where
  session_id : ℕ
  timestamp : String
  event_type : String
  severity : String
  message : String
deriving DecidableEq, Repr

/-- The telemetry database: the four tables plus the next rowid for
`sessions` (`INTEGER PRIMARY KEY` auto-assigns `max + 1`; no deletions
occur, so a counter is exact). -/
structure Store where
  sessions : List SessionRow
  next_id : ℕ
  sensor_readings : List SensorRow
  actuator_commands : List CommandRow
  events : List EventRow
deriving DecidableEq, Repr

/-- The freshly initialised database: empty tables, first rowid 1. -/
def initStore : Store := ⟨[], 1, [], [], []⟩

/-- Embeds `TelemetryLogger.create_session`: INSERT a running session with no
`ended_at`; returns the updated store and `lastrowid`.  The timestamp
`ts` stands for `datetime.utcnow().isoformat()`. -/
def create_session (s : Store) (variant_id : ℤ) (ts : String) : Store × ℕ :=
  ({ s with sessions := s.sessions ++ [⟨s.next_id, variant_id, ts, none, "running"⟩]
            next_id := s.next_id + 1 },
   s.next_id)

/-- Embeds `TelemetryLogger.get_session`: `SELECT * FROM sessions WHERE id=?`
with `fetchone` (the first matching row, if any). -/
def get_session (s : Store) (session_id : ℕ) : Option SessionRow :=
  s.sessions.find? fun r => r.id == session_id

/-- Embeds `TelemetryLogger.end_session`:
`UPDATE sessions SET ended_at=?, status=? WHERE id=?`. -/
def db_end_session (s : Store) (session_id : ℕ) (status : String) (ts : String) : Store :=
  { s with sessions := s.sessions.map fun r =>
      if r.id = session_id then { r with ended_at := some ts, status := status } else r }

/-- Embeds `TelemetryLogger.log_sensor`: INSERT a sensor reading. -/
def db_log_sensor (s : Store) (session_id : ℕ) (sensor_type : String)
    (value : ℚ) (unit : String) (ts : String) : Store :=
  { s with sensor_readings := s.sensor_readings ++ [⟨session_id, sensor_type, ts, value, unit⟩] }

/-- Embeds `TelemetryLogger.log_command`: INSERT an actuator command. -/
def db_log_command (s : Store) (session_id : ℕ) (actuator_type : String)
    (command : ℚ) (status : String) (ts : String) : Store :=
  { s with actuator_commands := s.actuator_commands ++ [⟨session_id, actuator_type, ts, command, status⟩] }

/-- Embeds `TelemetryLogger.log_event`: INSERT an event. -/
def db_log_event (s : Store) (session_id : ℕ) (event_type : String)
    (severity : String) (message : String) (ts : String) : Store :=
  { s with events := s.events ++ [⟨session_id, ts, event_type, severity, message⟩] }

/-- Result of `TelemetryLogger.sensor_stats`: the single aggregate row
`COUNT(*), AVG(value), MIN(value), MAX(value)`; the SQL aggregates are
`NULL` over an empty selection. -/
structure SensorStats where
  count : ℕ
  avg : Option ℚ
  min : Option ℚ
  max : Option ℚ
deriving DecidableEq, Repr

/-- Embeds `TelemetryLogger.sensor_stats`: aggregates over the readings matching
both the session id and the sensor type. -/
def sensor_stats (s : Store) (session_id : ℕ) (sensor_type : String) : SensorStats :=
  let rows := s.sensor_readings.filter fun r =>
    r.session_id = session_id ∧ r.sensor_type = sensor_type
  let vals := rows.map fun r => r.value
  { count := rows.length
    avg := if rows.length = 0 then none else some (vals.sum / (rows.length : ℚ))
    min := vals.min?
    max := vals.max? }

/-- An `HTTPException` raised by an endpoint of `main.py`. -/
structure HTTPException where
  status_code : ℕ
  detail : String
deriving DecidableEq, Repr

/-- The `SessionEnd` payload: `status` is `Literal["completed", "error"]`. -/
inductive EndStatus where
  | completed
  | error
deriving DecidableEq, Repr

/-- The string the `SessionEnd` payload carries into the database. -/
def EndStatus.toStr : EndStatus → String
  | .completed => "completed"
  | .error => "error"

/-- Endpoint `POST /sessions` of `main.py`: creates a running session. -/
def create_session_endpoint (s : Store) (variant_id : ℤ) (now : String) : Store × ℕ :=
  create_session s variant_id now

/-- Endpoint `POST /sessions/{id}/end` of `main.py`: 404 on an unknown
session, 400 unless the stored status is `running`, otherwise update and
return the stored row.  Failures leave the store untouched (the exception
is raised before any database write). -/
def end_session_endpoint (s : Store) (session_id : ℕ) (payload : EndStatus)
    (now : String) : Store × Except HTTPException (Option SessionRow) :=
  match get_session s session_id with
  | none => (s, .error ⟨404, "Session not found"⟩)
  | some session =>
    if session.status ≠ "running" then (s, .error ⟨400, "Session already ended"⟩)
    else
      let s' := db_end_session s session_id payload.toStr now
      (s', .ok (get_session s' session_id))

/-- Endpoint `POST /sessions/{id}/sensors`: 404 on an unknown session,
otherwise append the reading.  Only existence of the session is checked. -/
def log_sensor_endpoint (s : Store) (session_id : ℕ) (sensor_type : String)
    (value : ℚ) (unit : String) (now : String) : Store × Except HTTPException Unit :=
  match get_session s session_id with
  | none => (s, .error ⟨404, "Session not found"⟩)
  | some _ => (db_log_sensor s session_id sensor_type value unit now, .ok ())

/-- Endpoint `POST /sessions/{id}/actuators`: 404 on an unknown session,
otherwise append the command. -/
def log_actuator_endpoint (s : Store) (session_id : ℕ) (actuator_type : String)
    (command : ℚ) (status : String) (now : String) : Store × Except HTTPException Unit :=
  match get_session s session_id with
  | none => (s, .error ⟨404, "Session not found"⟩)
  | some _ => (db_log_command s session_id actuator_type command status now, .ok ())

/-- Endpoint `POST /sessions/{id}/events`: 404 on an unknown session,
otherwise append the event. -/
def log_event_endpoint (s : Store) (session_id : ℕ) (event_type : String)
    (severity : String) (message : String) (now : String) :
    Store × Except HTTPException Unit :=
  match get_session s session_id with
  | none => (s, .error ⟨404, "Session not found"⟩)
  | some _ => (db_log_event s session_id event_type severity message now, .ok ())

/-- One write against the store through the HTTP API of `main.py`
(read-only endpoints excluded — they do not change the store). -/
inductive StoreStep : Store → Store → Prop where
  | create (s : Store) (v : ℤ) (now : String) :
      StoreStep s (create_session_endpoint s v now).1
  | endSession (s : Store) (sid : ℕ) (payload : EndStatus) (now : String) :
      StoreStep s (end_session_endpoint s sid payload now).1
  | sensor (s : Store) (sid : ℕ) (t : String) (v : ℚ) (u : String) (now : String) :
      StoreStep s (log_sensor_endpoint s sid t v u now).1
  | actuator (s : Store) (sid : ℕ) (t : String) (c : ℚ) (st : String) (now : String) :
      StoreStep s (log_actuator_endpoint s sid t c st now).1
  | event (s : Store) (sid : ℕ) (t : String) (sev : String) (m : String) (now : String) :
      StoreStep s (log_event_endpoint s sid t sev m now).1

/-- The store states reachable from a fresh database through the API. -/
def ReachableStore (s : Store) : Prop :=
  Relation.ReflTransGen StoreStep initStore s

/-- The demo grid of `main()` in `prog.py`. -/
def demo_map_data : List (List Char) :=
  [['X', 'X', 'X', 'X', 'X'],
   ['.', 'X', '.', 'X', '.'],
   ['.', 'X', 'X', 'X', '.'],
   ['.', 'X', '.', '.', '.'],
   ['X', 'X', 'X', 'X', 'X']]

/-- A ragged grid input: rows of unequal length. -/
def ragged_map_data : List (List Char) := [['X'], ['X', 'X']]

/-- A freshly constructed controller / crawler / sensor calibrated to the
demo band (50, 120). -/
def fresh_state : InspectState := ⟨∅, [], none, some (50, 120)⟩

/-- A controller state in which the point (0,0) is already inspected. -/
def w5_state : InspectState := ⟨{⟨0, 0⟩}, [], none, some (50, 120)⟩

/-- A store with one running and one already-completed session. -/
def w_store : Store :=
  ⟨[⟨1, 10, "t0", none, "running"⟩, ⟨2, 10, "t0", some "t1", "completed"⟩],
   3, [], [], []⟩

/-- A store holding three pressure readings 10, 20, 30 for session 1. -/
def stats_store : Store :=
  ⟨[⟨1, 10, "t0", none, "running"⟩], 2,
   [⟨1, "pressure", "t1", 10, "bar"⟩, ⟨1, "pressure", "t2", 20, "bar"⟩,
    ⟨1, "pressure", "t3", 30, "bar"⟩],
   [], []⟩

/-- Structural invariant of the telemetry store: ids are below the rowid
counter and unique, and a session's `ended_at` is set exactly when its
status is not `running`. -/
def StoreInv (s : Store) : Prop :=
  (∀ r ∈ s.sessions, r.id < s.next_id)
  ∧ (s.sessions.map SessionRow.id).Nodup
  ∧ ∀ r ∈ s.sessions, (r.ended_at ≠ none ↔ r.status ≠ "running")

/-- C2: `get_pressure_status` classifies a pressure `p` against calibration
`(low, high)` as LEAK iff `p < low - 5`, otherwise HIGH iff `p > 150` — a
fixed constant, `high` is unused — otherwise NORMAL; with calibration
(50, 120): 44.9 is LEAK, 45.0 is NORMAL, 150.0 is NORMAL, 150.1 is HIGH. -/
theorem c2_pressure_classification (low high pressure : ℚ) :
    get_pressure_status (some (low, high)) pressure =
      .ok (if pressure < low - 5 then .LEAK else if pressure > 150 then .HIGH else .NORMAL)
    ∧ get_pressure_status (some (50, 120)) 44.9 = .ok .LEAK
    ∧ get_pressure_status (some (50, 120)) 45 = .ok .NORMAL
    ∧ get_pressure_status (some (50, 120)) 150 = .ok .NORMAL
    ∧ get_pressure_status (some (50, 120)) 150.1 = .ok .HIGH := by
  refine ⟨?_, ?_, ?_, ?_, ?_⟩
  · have hm : get_pressure_status (some (low, high)) pressure =
        if pressure < low - 5 then .ok .LEAK
        else if pressure > 150 then .ok .HIGH
        else .ok .NORMAL := rfl
    rw [hm]
    split_ifs <;> rfl
  · norm_num [get_pressure_status]
  · norm_num [get_pressure_status]
  · norm_num [get_pressure_status]
  · norm_num [get_pressure_status]

/-- C5: `inspect_point` is idempotent — on an already-inspected point it
returns the state unchanged (same `inspected` set, same leak list, same
crawler position), consumes no randomness, and emits no telemetry records;
and any successful call leaves the point inspected. -/
theorem c5_inspect_point_idempotent (st : InspectState) (point : PipePoint)
    (oracle : ℕ → ℚ) (k : ℕ) :
    (point ∈ st.inspected → inspect_point st point oracle k = .ok (st, k, []))
    ∧ (∀ st' k' recs, inspect_point st point oracle k = .ok (st', k', recs) →
        point ∈ st'.inspected) := by
  constructor
  · intro h
    simp [inspect_point, h]
  · intro st' k' recs h
    by_cases hmem : point ∈ st.inspected
    · rw [inspect_point, if_pos hmem] at h
      cases h
      exact hmem
    · rw [inspect_point, if_neg hmem] at h
      cases hrp : read_pressure st.calibration_data oracle k with
      | error e =>
        rw [hrp] at h
        cases h
      | ok pr =>
        rw [hrp] at h
        obtain ⟨pz, kz⟩ := pr
        dsimp only at h
        cases hst : get_pressure_status st.calibration_data pz with
        | error e =>
          rw [hst] at h
          cases h
        | ok status =>
          rw [hst] at h
          dsimp only at h
          cases status <;> (cases h; exact Finset.mem_insert_self _ _)

/-- Witness for C5 at a concrete state: (0,0) is already inspected, and
re-inspecting it is a no-op. -/
theorem c5_witness :
    (⟨0, 0⟩ : PipePoint) ∈ w5_state.inspected ∧
    inspect_point w5_state ⟨0, 0⟩ (fun _ => 100) 7 = .ok (w5_state, 7, []) :=
  ⟨by decide,
   (c5_inspect_point_idempotent w5_state ⟨0, 0⟩ (fun _ => 100) 7).1 (by decide)⟩

/-- C6 counterexample: constructing a grid map from the ragged input
`[['X'], ['X', 'X']]` does not fail — `PipeMap.__init__` performs no
validation and yields a grid map (width taken from the first row). -/
theorem c6_counterexample :
    PipeMap.ofData ragged_map_data =
      { map_data := ragged_map_data, width := 1, height := 2 } := by
  rfl

/-- C6 amended: construction never fails; any 2-D input, ragged included,
yields a grid map whose width is the first row's length (0 for no rows)
and whose height is the row count, and pipe points are confined to those
bounds. -/
theorem c6_no_validation (map_data : List (List Char)) :
    (PipeMap.ofData map_data).map_data = map_data
    ∧ (PipeMap.ofData map_data).width = (map_data.headD []).length
    ∧ (PipeMap.ofData map_data).height = map_data.length
    ∧ ∀ p, (PipeMap.ofData map_data).is_pipe_point p →
        0 ≤ p.x ∧ p.x < ((map_data.headD []).length : ℤ)
        ∧ 0 ≤ p.y ∧ p.y < (map_data.length : ℤ) := by
  refine ⟨rfl, rfl, rfl, ?_⟩
  intro p hp
  obtain ⟨h1, h2, h3, h4, _⟩ := hp
  exact ⟨h1, h2, h3, h4⟩

/-- Witness for C6's amended statement at the ragged input. -/
theorem c6_witness :
    (PipeMap.ofData ragged_map_data).is_pipe_point ⟨0, 0⟩
    ∧ (0 ≤ (PipePoint.mk 0 0).x
        ∧ (PipePoint.mk 0 0).x < ((ragged_map_data.headD []).length : ℤ)
        ∧ 0 ≤ (PipePoint.mk 0 0).y
        ∧ (PipePoint.mk 0 0).y < ((ragged_map_data.length : ℤ))) :=
  ⟨by decide, (c6_no_validation ragged_map_data).2.2.2 ⟨0, 0⟩ (by decide)⟩

/-- C8: `move_to` derives the direction from the exact unit delta —
(1,0) RIGHT, (−1,0) LEFT, (0,1) DOWN, (0,−1) UP, any other delta UNKNOWN —
the first ever move is UNKNOWN, the position always becomes the target;
from (2,2): to (3,2) RIGHT, to (2,1) UP, to (4,4) UNKNOWN. -/
theorem c8_move_to_direction (pos : Option PipePoint) (cur target : PipePoint) :
    (move_to (some cur) ⟨cur.x + 1, cur.y⟩).1 = Direction.RIGHT
    ∧ (move_to (some cur) ⟨cur.x - 1, cur.y⟩).1 = Direction.LEFT
    ∧ (move_to (some cur) ⟨cur.x, cur.y + 1⟩).1 = Direction.DOWN
    ∧ (move_to (some cur) ⟨cur.x, cur.y - 1⟩).1 = Direction.UP
    ∧ ((target.x - cur.x, target.y - cur.y) ∉
          ([(1, 0), (-1, 0), (0, 1), (0, -1)] : List (ℤ × ℤ)) →
        (move_to (some cur) target).1 = Direction.UNKNOWN)
    ∧ (move_to none target).1 = Direction.UNKNOWN
    ∧ (move_to pos target).2.1 = some target
    ∧ (move_to (some ⟨2, 2⟩) ⟨3, 2⟩).1 = Direction.RIGHT
    ∧ (move_to (some ⟨2, 2⟩) ⟨2, 1⟩).1 = Direction.UP
    ∧ (move_to (some ⟨2, 2⟩) ⟨4, 4⟩).1 = Direction.UNKNOWN := by
  refine ⟨?_, ?_, ?_, ?_, ?_, rfl, ?_, by decide, by decide, by decide⟩
  · show get_direction cur _ = _
    simp [get_direction]
  · show get_direction cur _ = _
    simp [get_direction]
  · show get_direction cur _ = _
    simp [get_direction]
  · show get_direction cur _ = _
    simp [get_direction]
  · intro h
    simp only [List.mem_cons, List.not_mem_nil, Prod.mk.injEq, not_or, or_false] at h
    obtain ⟨h1, h2, h3, h4⟩ := h
    show get_direction cur target = _
    unfold get_direction
    dsimp only
    repeat' split
    all_goals
      first
        | rfl
        | (rename_i hc; exact (h1 hc).elim)
        | (rename_i hc; exact (h2 hc).elim)
        | (rename_i hc; exact (h3 ⟨hc.2, hc.1⟩).elim)
        | (rename_i hc; exact (h4 ⟨hc.2, hc.1⟩).elim)
  · cases pos <;> rfl

/-- Witness for C8's UNKNOWN hypothesis at the concrete jump (2,2)→(4,4). -/
theorem c8_witness :
    ((4 : ℤ) - 2, (4 : ℤ) - 2) ∉ ([(1, 0), (-1, 0), (0, 1), (0, -1)] : List (ℤ × ℤ))
    ∧ (move_to (some ⟨2, 2⟩) ⟨4, 4⟩).1 = Direction.UNKNOWN :=
  ⟨by decide,
   (c8_move_to_direction none ⟨2, 2⟩ ⟨4, 4⟩).2.2.2.2.1 (by decide)⟩

/-- Reading `get_session` after the `UPDATE` of `db_end_session` for the same id:
the found row, if any, carries the new `ended_at` and status. -/
theorem get_session_db_end_session (s : Store) (sid : ℕ) (status ts : String) :
    get_session (db_end_session s sid status ts) sid =
      (get_session s sid).map fun r => { r with ended_at := some ts, status := status } := by
  unfold get_session db_end_session
  simp only
  rw [List.find?_map]
  have hc : ((fun r : SessionRow => r.id == sid) ∘ fun r : SessionRow =>
      if r.id = sid then { r with ended_at := some ts, status := status } else r) =
      fun r : SessionRow => r.id == sid := by
    funext r
    by_cases h : r.id = sid <;> simp [h]
  rw [hc]
  cases hfind : s.sessions.find? fun r => r.id == sid with
  | none => rfl
  | some r =>
    have hid : r.id = sid := by
      have := List.find?_some hfind
      simpa using this
    simp [hid]

/-- C3: `sensor_stats` over zero matching readings yields count 0 and null
average/min/max; over matching readings with values [10, 20, 30] it yields
count 3, average 20, minimum 10, maximum 30. -/
theorem c3_sensor_stats (s : Store) (session_id : ℕ) (sensor_type : String) :
    ((s.sensor_readings.filter fun r =>
        r.session_id = session_id ∧ r.sensor_type = sensor_type) = [] →
      sensor_stats s session_id sensor_type = ⟨0, none, none, none⟩)
    ∧ (((s.sensor_readings.filter fun r =>
          r.session_id = session_id ∧ r.sensor_type = sensor_type).map
            fun r => r.value) = [10, 20, 30] →
        sensor_stats s session_id sensor_type = ⟨3, some 20, some 10, some 30⟩) := by
  constructor
  · intro h
    unfold sensor_stats
    rw [h]
    rfl
  · intro h
    unfold sensor_stats
    have hlen : (s.sensor_readings.filter fun r =>
        r.session_id = session_id ∧ r.sensor_type = sensor_type).length = 3 := by
      have := congrArg List.length h
      simpa using this
    dsimp only
    rw [h, hlen]
    rw [SensorStats.mk.injEq]
    refine ⟨rfl, ?_, by decide, by decide⟩
    norm_num

/-- Witness for C3 at a concrete store: session 1 has pressure readings
10, 20, 30 and no readings of type "flow". -/
theorem c3_witness :
    sensor_stats stats_store 1 "pressure" = ⟨3, some 20, some 10, some 30⟩
    ∧ sensor_stats stats_store 1 "flow" = ⟨0, none, none, none⟩ :=
  ⟨(c3_sensor_stats stats_store 1 "pressure").2 (by rfl),
   (c3_sensor_stats stats_store 1 "flow").1 (by rfl)⟩

/-- C4: ending a session 404s on an unknown id and 400s when the stored
status is not `running`, in both cases leaving the store unchanged; on
success `ended_at` is set to the server timestamp and the status becomes
the requested terminal status. -/
theorem c4_end_session (s : Store) (sid : ℕ) (payload : EndStatus) (now : String) :
    (get_session s sid = none →
      end_session_endpoint s sid payload now = (s, .error ⟨404, "Session not found"⟩))
    ∧ (∀ session, get_session s sid = some session → session.status ≠ "running" →
        end_session_endpoint s sid payload now = (s, .error ⟨400, "Session already ended"⟩))
    ∧ (∀ session, get_session s sid = some session → session.status = "running" →
        (end_session_endpoint s sid payload now).1 = db_end_session s sid payload.toStr now
        ∧ get_session (end_session_endpoint s sid payload now).1 sid =
            some { session with ended_at := some now, status := payload.toStr }
        ∧ (end_session_endpoint s sid payload now).2 =
            .ok (some { session with ended_at := some now, status := payload.toStr })) := by
  refine ⟨?_, ?_, ?_⟩
  · intro h
    unfold end_session_endpoint
    rw [h]
  · intro session hfound hstat
    unfold end_session_endpoint
    rw [hfound]
    simp [hstat]
  · intro session hfound hstat
    unfold end_session_endpoint
    rw [hfound]
    dsimp only
    rw [if_neg (by simp [hstat])]
    dsimp only
    refine ⟨rfl, ?_, ?_⟩
    · rw [get_session_db_end_session, hfound]
      rfl
    · rw [get_session_db_end_session, hfound]
      rfl

/-- Witness for C4 at a concrete store: ending running session 1 succeeds
and stores the terminal status; ending completed session 2 fails with 400. -/
theorem c4_witness :
    get_session w_store 1 = some ⟨1, 10, "t0", none, "running"⟩
    ∧ get_session (end_session_endpoint w_store 1 .completed "t2").1 1 =
        some ⟨1, 10, "t0", some "t2", "completed"⟩
    ∧ get_session w_store 2 = some ⟨2, 10, "t0", some "t1", "completed"⟩
    ∧ end_session_endpoint w_store 2 .error "t2" =
        (w_store, .error ⟨400, "Session already ended"⟩) :=
  ⟨by rfl,
   ((c4_end_session w_store 1 .completed "t2").2.2
      ⟨1, 10, "t0", none, "running"⟩ (by rfl) (by rfl)).2.1,
   by rfl,
   (c4_end_session w_store 2 .error "t2").2.1
      ⟨2, 10, "t0", some "t1", "completed"⟩ (by rfl) (by decide)⟩

/-- C10: the sensor, actuator, and event logging endpoints check only that
the session exists — whatever its status — and on success append exactly
one row to the corresponding table. -/
theorem c10_log_checks_only_existence (s : Store) (sid : ℕ) (session : SessionRow)
    (hfound : get_session s sid = some session)
    (t1 : String) (v : ℚ) (u : String) (t2 : String) (c : ℚ) (cs : String)
    (t3 sev msg now : String) :
    log_sensor_endpoint s sid t1 v u now = (db_log_sensor s sid t1 v u now, .ok ())
    ∧ (log_sensor_endpoint s sid t1 v u now).1.sensor_readings =
        s.sensor_readings ++ [⟨sid, t1, now, v, u⟩]
    ∧ log_actuator_endpoint s sid t2 c cs now = (db_log_command s sid t2 c cs now, .ok ())
    ∧ (log_actuator_endpoint s sid t2 c cs now).1.actuator_commands =
        s.actuator_commands ++ [⟨sid, t2, now, c, cs⟩]
    ∧ log_event_endpoint s sid t3 sev msg now = (db_log_event s sid t3 sev msg now, .ok ())
    ∧ (log_event_endpoint s sid t3 sev msg now).1.events =
        s.events ++ [⟨sid, now, t3, sev, msg⟩] := by
  unfold log_sensor_endpoint log_actuator_endpoint log_event_endpoint
  rw [hfound]
  exact ⟨rfl, rfl, rfl, rfl, rfl, rfl⟩

/-- Witness for C10 at a concrete store: logging against the *completed*
session 2 succeeds and appends the rows. -/
theorem c10_witness :
    get_session w_store 2 = some ⟨2, 10, "t0", some "t1", "completed"⟩
    ∧ (log_sensor_endpoint w_store 2 "pressure" 68.4 "bar" "t4").2 = .ok ()
    ∧ (log_sensor_endpoint w_store 2 "pressure" 68.4 "bar" "t4").1.sensor_readings =
        w_store.sensor_readings ++ [⟨2, "pressure", "t4", 68.4, "bar"⟩]
    ∧ (log_event_endpoint w_store 2 "leak_detected" "error" "m" "t5").2 = .ok () := by
  have h := c10_log_checks_only_existence w_store 2 ⟨2, 10, "t0", some "t1", "completed"⟩
    (by rfl) "pressure" 68.4 "bar" "move" 1 "sent" "leak_detected" "error" "m" "t4"
  have h2 := c10_log_checks_only_existence w_store 2 ⟨2, 10, "t0", some "t1", "completed"⟩
    (by rfl) "pressure" 68.4 "bar" "move" 1 "sent" "leak_detected" "error" "m" "t5"
  exact ⟨by rfl, by rw [h.1], h.2.1, by rw [h2.2.2.2.2.1]⟩

/-- Membership in `get_all_pipe_points` is exactly `is_pipe_point`. -/
theorem mem_get_all_pipe_points (g : PipeMap) (p : PipePoint) :
    p ∈ g.get_all_pipe_points ↔ g.is_pipe_point p := by
  unfold PipeMap.get_all_pipe_points
  rw [List.mem_flatMap]
  constructor
  · rintro ⟨y, -, hmem⟩
    rw [List.mem_filter] at hmem
    simpa using hmem.2
  · intro hp
    obtain ⟨hx0, hxw, hy0, hyh, hcell⟩ := hp
    refine ⟨p.y.toNat, List.mem_range.mpr ((Int.toNat_lt hy0).mpr hyh), ?_⟩
    rw [List.mem_filter]
    constructor
    · rw [List.mem_map]
      refine ⟨p.x.toNat, List.mem_range.mpr ((Int.toNat_lt hx0).mpr hxw), ?_⟩
      cases p with
      | mk px py =>
        simp only [PipePoint.mk.injEq]
        exact ⟨Int.toNat_of_nonneg hx0, Int.toNat_of_nonneg hy0⟩
    · simpa using ⟨hx0, hxw, hy0, hyh, hcell⟩

/-- Every element of one row slice of the enumeration has that row's `y`. -/
theorem row_slice_y (g : PipeMap) (y : ℕ) (q : PipePoint)
    (h : q ∈ ((List.range g.width).map fun (x : ℕ) =>
        PipePoint.mk (x : ℤ) (y : ℤ)).filter fun p => g.is_pipe_point p) :
    q.y = (y : ℤ) := by
  rw [List.mem_filter] at h
  obtain ⟨x, -, rfl⟩ := List.mem_map.mp h.1
  rfl

/-- The enumeration of `get_all_pipe_points` is strictly increasing in the
key `(y, x)` — row-major order. -/
theorem get_all_pipe_points_sorted (g : PipeMap) :
    g.get_all_pipe_points.Pairwise yx_lt := by
  unfold PipeMap.get_all_pipe_points
  rw [List.flatMap_def, List.pairwise_flatten]
  constructor
  · intro l' hl'
    obtain ⟨y, -, rfl⟩ := List.mem_map.mp hl'
    have hmap : (((List.range g.width).map fun (x : ℕ) =>
        PipePoint.mk (x : ℤ) (y : ℤ))).Pairwise yx_lt := by
      refine List.Pairwise.map _ ?_ (List.pairwise_lt_range g.width)
      intro a b hab
      refine Or.inr ⟨rfl, ?_⟩
      show (a : ℤ) < (b : ℤ)
      exact_mod_cast hab
    exact hmap.sublist (List.filter_sublist _)
  · refine List.Pairwise.map _ ?_ (List.pairwise_lt_range g.height)
    intro y1 y2 h12 a ha b hb
    have hay := row_slice_y g y1 a ha
    have hby := row_slice_y g y2 b hb
    exact Or.inl (by rw [hay, hby]; exact_mod_cast h12)

/-- Since `yx_lt` is irreflexive, the sorted enumeration has no duplicates. -/
theorem get_all_pipe_points_nodup (g : PipeMap) :
    g.get_all_pipe_points.Nodup := by
  refine (get_all_pipe_points_sorted g).imp ?_
  intro a b hab
  intro heq
  subst heq
  rcases hab with h | ⟨-, h⟩ <;> omega

/-- C9: `get_all_pipe_points` returns exactly the in-bounds cells marked
`'X'`, each exactly once, in row-major order (`y` ascending, then `x`
ascending). -/
theorem c9_all_pipe_points (map_data : List (List Char))
    (hrect : ∀ row ∈ map_data, row.length = (map_data.headD []).length) :
    (∀ p, p ∈ (PipeMap.ofData map_data).get_all_pipe_points ↔
        (PipeMap.ofData map_data).is_pipe_point p)
    ∧ (PipeMap.ofData map_data).get_all_pipe_points.Pairwise yx_lt
    ∧ (PipeMap.ofData map_data).get_all_pipe_points.Nodup :=
  ⟨fun p => mem_get_all_pipe_points _ p,
   get_all_pipe_points_sorted _,
   get_all_pipe_points_nodup _⟩

/-- Witness for C9 at the demo grid (rectangular, 5×5). -/
theorem c9_witness :
    ((⟨0, 0⟩ : PipePoint) ∈ (PipeMap.ofData demo_map_data).get_all_pipe_points ↔
      (PipeMap.ofData demo_map_data).is_pipe_point ⟨0, 0⟩)
    ∧ (PipeMap.ofData demo_map_data).get_all_pipe_points.Nodup :=
  ⟨(c9_all_pipe_points demo_map_data (by decide)).1 ⟨0, 0⟩,
   (c9_all_pipe_points demo_map_data (by decide)).2.2⟩

/-- Lookup lemma: `find?` on the id predicate returns the unique row with that id. -/
theorem find_id_of_nodup (l : List SessionRow)
    (hn : (l.map SessionRow.id).Nodup) (r : SessionRow) (hr : r ∈ l) :
    l.find? (fun x => x.id == r.id) = some r := by
  induction l with
  | nil => cases hr
  | cons a t ih =>
    rw [List.map_cons, List.nodup_cons] at hn
    by_cases ha : a.id = r.id
    · have har : a = r := by
        rcases List.mem_cons.mp hr with h | h
        · exact h.symm
        · exact absurd (ha ▸ List.mem_map_of_mem SessionRow.id h) hn.1
      rw [List.find?_cons_of_pos _ (by simp [ha])]
      rw [har]
    · have hrt : r ∈ t := by
        rcases List.mem_cons.mp hr with h | h
        · exact absurd (by rw [h]) ha
        · exact h
      rw [List.find?_cons_of_neg _ (by simp [ha])]
      exact ih hn.2 hrt

/-- The terminal status string of a `SessionEnd` payload is never
`running`. -/
theorem endStatus_ne_running (payload : EndStatus) : payload.toStr ≠ "running" := by
  cases payload <;> decide

/-- The fresh store satisfies the invariant. -/
theorem storeInv_init : StoreInv initStore := by
  refine ⟨?_, ?_, ?_⟩ <;> simp [initStore]

/-- Every API write preserves the store invariant. -/
theorem storeInv_step {s s' : Store} (hinv : StoreInv s) (hstep : StoreStep s s') :
    StoreInv s' := by
  obtain ⟨hbound, hnodup, hiff⟩ := hinv
  cases hstep with
  | create v now =>
    unfold create_session_endpoint create_session
    dsimp only
    refine ⟨?_, ?_, ?_⟩
    · intro r hr
      rcases List.mem_append.mp hr with h | h
      · exact Nat.lt_succ_of_lt (hbound r h)
      · rw [List.mem_singleton.mp h]
        exact Nat.lt_succ_self _
    · rw [List.map_append, List.nodup_append]
      refine ⟨hnodup, List.nodup_singleton _, ?_⟩
      intro i hi
      obtain ⟨rr, hrr, rfl⟩ := List.mem_map.mp hi
      simp only [List.map_cons, List.map_nil, List.mem_singleton]
      intro heq
      exact absurd (hbound rr hrr) (by omega)
    · intro r hr
      rcases List.mem_append.mp hr with h | h
      · exact hiff r h
      · rw [List.mem_singleton.mp h]
        simp
  | endSession sid payload now =>
    unfold end_session_endpoint
    cases hfound : get_session s sid with
    | none => exact ⟨hbound, hnodup, hiff⟩
    | some session =>
      dsimp only
      by_cases hstat : session.status ≠ "running"
      · rw [if_pos hstat]
        exact ⟨hbound, hnodup, hiff⟩
      · rw [if_neg hstat]
        unfold db_end_session
        dsimp only
        refine ⟨?_, ?_, ?_⟩
        · intro r hr
          obtain ⟨r0, hr0, rfl⟩ := List.mem_map.mp hr
          have hid : (if r0.id = sid then
              ({ r0 with ended_at := some now, status := payload.toStr } : SessionRow)
              else r0).id = r0.id := by
            split <;> rfl
          rw [hid]
          exact hbound r0 hr0
        · have hmap : (s.sessions.map fun r =>
              if r.id = sid then
                ({ r with ended_at := some now, status := payload.toStr } : SessionRow)
              else r).map SessionRow.id = s.sessions.map SessionRow.id := by
            rw [List.map_map]
            refine List.map_congr_left ?_
            intro r _
            show (if r.id = sid then _ else r).id = r.id
            split <;> rfl
          rw [hmap]
          exact hnodup
        · intro r hr
          obtain ⟨r0, hr0, rfl⟩ := List.mem_map.mp hr
          by_cases hid : r0.id = sid
          · rw [if_pos hid]
            constructor
            · intro _
              exact endStatus_ne_running payload
            · intro _
              simp
          · rw [if_neg hid]
            exact hiff r0 hr0
  | sensor sid t v u now =>
    unfold log_sensor_endpoint
    cases get_session s sid with
    | none => exact ⟨hbound, hnodup, hiff⟩
    | some _ => exact ⟨hbound, hnodup, hiff⟩
  | actuator sid t c st now =>
    unfold log_actuator_endpoint
    cases get_session s sid with
    | none => exact ⟨hbound, hnodup, hiff⟩
    | some _ => exact ⟨hbound, hnodup, hiff⟩
  | event sid t sev m now =>
    unfold log_event_endpoint
    cases get_session s sid with
    | none => exact ⟨hbound, hnodup, hiff⟩
    | some _ => exact ⟨hbound, hnodup, hiff⟩

/-- Every reachable store satisfies the invariant. -/
theorem storeInv_reachable {s : Store} (h : ReachableStore s) : StoreInv s := by
  induction h with
  | refl => exact storeInv_init
  | tail _ hstep ih => exact storeInv_step ih hstep

/-- A session row that is no longer `running` survives any further API
write unchanged (its status and `ended_at` included): the end-session
endpoint refuses to touch it, every other write leaves `sessions` alone. -/
theorem terminal_row_stable {s s' : Store} (hinv : StoreInv s)
    (hstep : StoreStep s s') (r : SessionRow) (hr : r ∈ s.sessions)
    (hterm : r.status ≠ "running") : r ∈ s'.sessions := by
  obtain ⟨hbound, hnodup, hiff⟩ := hinv
  cases hstep with
  | create v now =>
    unfold create_session_endpoint create_session
    exact List.mem_append_left _ hr
  | endSession sid payload now =>
    unfold end_session_endpoint
    cases hfound : get_session s sid with
    | none => exact hr
    | some session =>
      dsimp only
      by_cases hstat : session.status ≠ "running"
      · rw [if_pos hstat]
        exact hr
      · rw [if_neg hstat]
        unfold db_end_session
        dsimp only
        rw [not_not] at hstat
        have hid : r.id ≠ sid := by
          intro heq
          have : get_session s sid = some r := by
            unfold get_session
            rw [← heq]
            exact find_id_of_nodup s.sessions hnodup r hr
          rw [hfound] at this
          cases this
          exact hterm hstat
        have : r = if r.id = sid then
            ({ r with ended_at := some now, status := payload.toStr } : SessionRow)
            else r := by
          rw [if_neg hid]
        exact this ▸ List.mem_map_of_mem _ hr
  | sensor sid t v u now =>
    unfold log_sensor_endpoint
    cases get_session s sid with
    | none => exact hr
    | some _ => exact hr
  | actuator sid t c st now =>
    unfold log_actuator_endpoint
    cases get_session s sid with
    | none => exact hr
    | some _ => exact hr
  | event sid t sev m now =>
    unfold log_event_endpoint
    cases get_session s sid with
    | none => exact hr
    | some _ => exact hr

/-- C7: in every reachable store state every session row has `ended_at`
set iff its status is not `running`; `create_session` establishes the
invariant (new row is `running` with no `ended_at`), and a session leaves
`running` at most once — once terminal, a row is never modified by any
further API write. -/
theorem c7_session_lifecycle :
    (∀ s, ReachableStore s → ∀ r ∈ s.sessions, (r.ended_at ≠ none ↔ r.status ≠ "running"))
    ∧ (∀ s v ts, (create_session s v ts).1.sessions =
        s.sessions ++ [⟨s.next_id, v, ts, none, "running"⟩])
    ∧ (∀ s s', ReachableStore s → StoreStep s s' →
        ∀ r ∈ s.sessions, r.status ≠ "running" → r ∈ s'.sessions) :=
  ⟨fun _ hreach r hr => (storeInv_reachable hreach).2.2 r hr,
   fun _ _ _ => rfl,
   fun _ _ hreach hstep r hr hterm =>
     terminal_row_stable (storeInv_reachable hreach) hstep r hr hterm⟩

/-- Witness for C7 on the concrete two-step run create → end: the stored
row of the ended session satisfies the invariant. -/
theorem c7_witness :
    (⟨1, 10, "t0", some "t1", "completed"⟩ : SessionRow) ∈
      (end_session_endpoint (create_session_endpoint initStore 10 "t0").1
        1 .completed "t1").1.sessions
    ∧ ((some "t1" : Option String) ≠ none ↔ ("completed" : String) ≠ "running") := by
  have hreach : ReachableStore
      (end_session_endpoint (create_session_endpoint initStore 10 "t0").1
        1 .completed "t1").1 :=
    Relation.ReflTransGen.tail
      (Relation.ReflTransGen.single (StoreStep.create initStore 10 "t0"))
      (StoreStep.endSession (create_session_endpoint initStore 10 "t0").1 1 .completed "t1")
  have hmem : (⟨1, 10, "t0", some "t1", "completed"⟩ : SessionRow) ∈
      (end_session_endpoint (create_session_endpoint initStore 10 "t0").1
        1 .completed "t1").1.sessions := by decide
  exact ⟨hmem, c7_session_lifecycle.1 _ hreach _ hmem⟩

/-- The order `yx_lt` is irreflexive. -/
theorem yx_lt_irrefl (p : PipePoint) : ¬ yx_lt p p := by
  unfold yx_lt
  omega

/-- The order `yx_lt` is transitive. -/
theorem yx_lt_trans {p q r : PipePoint} (h1 : yx_lt p q) (h2 : yx_lt q r) :
    yx_lt p r := by
  unfold yx_lt at *
  omega

/-- From `¬ b < a` and `b < r` conclude `a < r` in the `(y, x)` order. -/
theorem yx_lt_of_not_lt_of_lt {a b r : PipePoint} (h1 : ¬ yx_lt b a)
    (h2 : yx_lt b r) : yx_lt a r := by
  unfold yx_lt at *
  omega

/-- Neighbours returned by `get_neighbors` are pipe points. -/
theorem neighbors_pipe (g : PipeMap) (p n : PipePoint)
    (h : n ∈ g.get_neighbors p) : g.is_pipe_point n := by
  simp only [PipeMap.get_neighbors, List.mem_filterMap] at h
  obtain ⟨d, -, hd⟩ := h
  split at hd
  · cases hd
    assumption
  · cases hd

/-- The fold inside Python `min` returns an element of the list that no
element strictly precedes in the key order. -/
theorem foldl_min_spec (rest : List PipePoint) (a : PipePoint) :
    (rest.foldl (fun best q => if yx_lt q best then q else best) a = a
      ∨ rest.foldl (fun best q => if yx_lt q best then q else best) a ∈ rest)
    ∧ ∀ q, (q = a ∨ q ∈ rest) →
        ¬ yx_lt q (rest.foldl (fun best q => if yx_lt q best then q else best) a) := by
  induction rest generalizing a with
  | nil =>
    refine ⟨Or.inl rfl, ?_⟩
    intro q hq
    rcases hq with heq | h
    · subst heq
      exact yx_lt_irrefl q
    · cases h
  | cons b t ih =>
    rw [List.foldl_cons]
    obtain ⟨ihmem, ihmin⟩ := ih (if yx_lt b a then b else a)
    constructor
    · rcases ihmem with h | h
      · rw [h]
        by_cases hba : yx_lt b a
        · rw [if_pos hba]
          exact Or.inr (List.mem_cons_self b t)
        · rw [if_neg hba]
          exact Or.inl rfl
      · exact Or.inr (List.mem_cons_of_mem b h)
    · intro q hq
      rcases hq with heq | hq
      · subst heq
        by_cases hba : yx_lt b q
        · intro har
          have hbr : ¬ yx_lt b (t.foldl (fun best p => if yx_lt p best then p else best)
              (if yx_lt b q then b else q)) := ihmin b (Or.inl (if_pos hba).symm)
          exact hbr (yx_lt_trans hba har)
        · exact ihmin q (Or.inl (if_neg hba).symm)
      · rcases List.mem_cons.mp hq with heq | hqt
        · subst heq
          by_cases hba : yx_lt q a
          · exact ihmin q (Or.inl (if_pos hba).symm)
          · intro hqr
            have har : ¬ yx_lt a (t.foldl (fun best p => if yx_lt p best then p else best)
                (if yx_lt q a then q else a)) := ihmin a (Or.inl (if_neg hba).symm)
            exact har (yx_lt_of_not_lt_of_lt hba hqr)
        · exact ihmin q (Or.inr hqt)

/-- Python `min` over a non-empty list returns an element no other element
strictly precedes in the `(y, x)` key order. -/
theorem min_by_yx_spec (l : List PipePoint) (s : PipePoint)
    (h : min_by_yx l = some s) : s ∈ l ∧ ∀ q ∈ l, ¬ yx_lt q s := by
  cases l with
  | nil => cases h
  | cons a rest =>
    rw [min_by_yx] at h
    cases h
    obtain ⟨hmem, hmin⟩ := foldl_min_spec rest a
    constructor
    · rcases hmem with h | h
      · rw [h]
        exact List.mem_cons_self a rest
      · exact List.mem_cons_of_mem a h
    · intro q hq
      rcases List.mem_cons.mp hq with heq | hqt
      · subst heq
        exact hmin q (Or.inl rfl)
      · exact hmin q (Or.inr hqt)

/-- A set containing the start and closed under pipe neighbours contains
every reachable point. -/
theorem reach_closed (g : PipeMap) (start : PipePoint) (V : Finset PipePoint)
    (hs : start ∈ V) (hcl : ∀ v ∈ V, ∀ n ∈ g.get_neighbors v, n ∈ V) :
    ∀ p, Reach g start p → p ∈ V := by
  intro p h
  induction h with
  | refl => exact hs
  | tail _ hbc ih => exact hcl _ ih _ hbc

/-- On a calibrated sensor, inspecting a fresh point always succeeds,
consumes one oracle index, adds exactly that point to the inspected set
and keeps the calibration. -/
theorem inspect_point_ok (st : InspectState) (p : PipePoint) (oracle : ℕ → ℚ)
    (k : ℕ) (c : ℚ × ℚ) (hcal : st.calibration_data = some c)
    (hmem : p ∉ st.inspected) :
    ∃ st' recs, inspect_point st p oracle k = .ok (st', k + 1, recs)
      ∧ st'.inspected = insert p st.inspected
      ∧ st'.calibration_data = some c := by
  obtain ⟨lo, hi⟩ := c
  rw [inspect_point, if_neg hmem, hcal]
  simp only [read_pressure, get_pressure_status]
  split_ifs <;> exact ⟨_, _, rfl, rfl, rfl⟩

/-- Invariant proof of the traversal loop: starting from a state whose
inspected set equals the visited-tracking set, contains the start, and is
closed under neighbours up to the stack, the loop terminates successfully
and the sequence of inspected points is exactly the set of points
reachable from the start, without duplicates. -/
theorem auto_inspect_loop_spec (g : PipeMap) (oracle : ℕ → ℚ) (c : ℚ × ℚ)
    (start : PipePoint) :
    ∀ (st : InspectState) (visited : Finset PipePoint) (stack : List PipePoint)
      (k : ℕ) (order : List PipePoint),
      st.inspected = visited →
      st.calibration_data = some c →
      start ∈ visited →
      (∀ v ∈ visited, Reach g start v) →
      (∀ q ∈ stack, Reach g start q) →
      (∀ v ∈ visited, ∀ n ∈ g.get_neighbors v, n ∈ visited ∨ n ∈ stack) →
      order.Nodup →
      (∀ p, p ∈ order ↔ p ∈ visited) →
      ∃ st' visited' order',
        auto_inspect_loop g oracle st visited stack k order = .ok (st', visited', order')
        ∧ order'.Nodup
        ∧ (∀ p, p ∈ order' ↔ Reach g start p)
        ∧ st'.inspected = visited'
        ∧ (∀ p, p ∈ order' ↔ p ∈ visited') := by
  intro st visited stack k order
  induction st, visited, stack, k, order using auto_inspect_loop.induct g oracle with
  | case1 st visited k order =>
    intro hinsp hcal hstart hvr hsr hcl hnd hom
    refine ⟨st, visited, order, ?_, hnd, ?_, hinsp, hom⟩
    · rw [auto_inspect_loop.eq_def]
    · intro p
      constructor
      · intro hp
        exact hvr p ((hom p).mp hp)
      · intro hp
        refine (hom p).mpr (reach_closed g start visited hstart ?_ p hp)
        intro v hv n hn
        rcases hcl v hv n hn with h | h
        · exact h
        · cases h
  | case2 st visited k order a rest hmem ih =>
    intro hinsp hcal hstart hvr hsr hcl hnd hom
    obtain ⟨st', visited', order', heqloop, hrest⟩ := ih hinsp hcal hstart hvr
      (fun q hq => hsr q (List.mem_cons_of_mem a hq))
      (fun v hv n hn => by
        rcases hcl v hv n hn with h | h
        · exact Or.inl h
        · rcases List.mem_cons.mp h with heqn | h
          · exact Or.inl (by rw [heqn]; exact hmem)
          · exact Or.inr h)
      hnd hom
    refine ⟨st', visited', order', ?_, hrest⟩
    rw [auto_inspect_loop.eq_def]
    dsimp only
    rw [if_pos hmem]
    exact heqloop
  | case3 st visited k order a rest hmem e herr =>
    intro hinsp hcal hstart hvr hsr hcl hnd hom
    exfalso
    have hnotin : a ∉ st.inspected := by
      rw [hinsp]
      exact hmem
    obtain ⟨st'', recs, hok, -, -⟩ := inspect_point_ok st a oracle k c hcal hnotin
    rw [hok] at herr
    cases herr
  | case4 st visited k order a rest hmem st' k' snd heq ih =>
    intro hinsp hcal hstart hvr hsr hcl hnd hom
    have hnotin : a ∉ st.inspected := by
      rw [hinsp]
      exact hmem
    obtain ⟨st'', recs, hok, hins, hcal'⟩ := inspect_point_ok st a oracle k c hcal hnotin
    rw [hok] at heq
    cases heq
    have hreach_a : Reach g start a := hsr a (List.mem_cons_self a rest)
    obtain ⟨stf, Vf, ordf, heqloop, hnd', hiffR, hinsp', hiffV⟩ := ih
      (by rw [hins, hinsp])
      hcal'
      (Finset.mem_insert_of_mem hstart)
      (fun v hv => by
        rcases Finset.mem_insert.mp hv with heqv | hv
        · rw [heqv]
          exact hreach_a
        · exact hvr v hv)
      (fun q hq => by
        rcases List.mem_append.mp hq with h | h
        · rw [List.mem_reverse] at h
          have hn := List.mem_filter.mp h
          exact Relation.ReflTransGen.tail hreach_a hn.1
        · exact hsr q (List.mem_cons_of_mem a h))
      (fun v hv n hn => by
        rcases Finset.mem_insert.mp hv with heqv | hv
        · rw [heqv] at hn
          by_cases hni : n ∈ insert a visited
          · exact Or.inl hni
          · refine Or.inr (List.mem_append_left _ ?_)
            rw [List.mem_reverse, List.mem_filter]
            exact ⟨hn, by simpa using hni⟩
        · rcases hcl v hv n hn with h | h
          · exact Or.inl (Finset.mem_insert_of_mem h)
          · rcases List.mem_cons.mp h with heqn | h
            · exact Or.inl (by rw [heqn]; exact Finset.mem_insert_self a visited)
            · exact Or.inr (List.mem_append_right _ h))
      (by
        refine List.Nodup.append hnd (List.nodup_singleton a) ?_
        intro x hx hxa
        rw [List.mem_singleton] at hxa
        subst hxa
        exact hmem ((hom x).mp hx))
      (fun p => by
        rw [List.mem_append, List.mem_singleton, Finset.mem_insert]
        constructor
        · rintro (h | h)
          · exact Or.inr ((hom p).mp h)
          · exact Or.inl h
        · rintro (h | h)
          · exact Or.inr h
          · exact Or.inl ((hom p).mpr h))
    refine ⟨stf, Vf, ordf, ?_, hnd', hiffR, hinsp', hiffV⟩
    rw [auto_inspect_loop.eq_def]
    dsimp only
    rw [if_neg hmem, hok]
    exact heqloop

/-- C1: on a rectangular grid with at least one pipe point, `auto_inspect`
of a fresh calibrated controller starts at the pipe point with the
lexicographically smallest `(y, x)` key, terminates successfully (the
model is a total function and returns `.ok`), and the sequence of
inspected points contains every pipe point reachable from the start via
4-directional pipe-to-pipe moves exactly once and nothing else; the final
`inspected` set is exactly the reachable set. -/
theorem c1_auto_inspect (map_data : List (List Char))
    (hrect : ∀ row ∈ map_data, row.length = (map_data.headD []).length)
    (st : InspectState) (oracle : ℕ → ℚ) (c : ℚ × ℚ)
    (hcal : st.calibration_data = some c) (hfresh : st.inspected = ∅)
    (start : PipePoint)
    (hstart : min_by_yx (PipeMap.ofData map_data).get_all_pipe_points = some start) :
    (PipeMap.ofData map_data).is_pipe_point start
    ∧ (∀ q, (PipeMap.ofData map_data).is_pipe_point q → ¬ yx_lt q start)
    ∧ ∃ st' visited' order',
        auto_inspect (PipeMap.ofData map_data) st oracle = .ok (st', visited', order')
        ∧ order'.Nodup
        ∧ (∀ p, p ∈ order' ↔ Reach (PipeMap.ofData map_data) start p)
        ∧ (∀ p, p ∈ st'.inspected ↔ Reach (PipeMap.ofData map_data) start p) := by
  obtain ⟨hmem, hmin⟩ := min_by_yx_spec _ start hstart
  have hpipe : (PipeMap.ofData map_data).is_pipe_point start :=
    (mem_get_all_pipe_points _ start).mp hmem
  refine ⟨hpipe, ?_, ?_⟩
  · intro q hq
    exact hmin q ((mem_get_all_pipe_points _ q).mpr hq)
  · unfold auto_inspect
    rw [hstart]
    dsimp only
    have hnotin : start ∉ st.inspected := by
      rw [hfresh]
      exact Finset.not_mem_empty start
    obtain ⟨st₁, recs, hok, hins, hcal'⟩ := inspect_point_ok st start oracle 0 c hcal hnotin
    rw [hok]
    dsimp only
    have hvisited : st₁.inspected = insert start ∅ := by
      rw [hins, hfresh]
    obtain ⟨st', V', ord', heqloop, hnd, hiffR, hinsp', hiffV⟩ :=
      auto_inspect_loop_spec (PipeMap.ofData map_data) oracle c start st₁ st₁.inspected
        ((PipeMap.ofData map_data).get_neighbors start).reverse 1 [start]
        rfl hcal'
        (by rw [hvisited]; exact Finset.mem_insert_self _ _)
        (fun v hv => by
          rw [hvisited] at hv
          rcases Finset.mem_insert.mp hv with heq | hv
          · rw [heq]
            exact Relation.ReflTransGen.refl
          · exact absurd hv (Finset.not_mem_empty v))
        (fun q hq => by
          rw [List.mem_reverse] at hq
          exact Relation.ReflTransGen.tail Relation.ReflTransGen.refl hq)
        (fun v hv n hn => by
          rw [hvisited] at hv
          rcases Finset.mem_insert.mp hv with heq | hv
          · rw [heq] at hn
            exact Or.inr (List.mem_reverse.mpr hn)
          · exact absurd hv (Finset.not_mem_empty v))
        (List.nodup_singleton start)
        (fun p => by
          rw [List.mem_singleton, hvisited]
          simp)
    refine ⟨st', V', ord', heqloop, hnd, hiffR, ?_⟩
    intro p
    rw [hinsp']
    exact (hiffV p).symm.trans (hiffR p)

/-- Witness for C1 at the demo grid of `main()`: the start is (0,0), a
pipe point the traversal may begin from. -/
theorem c1_witness :
    min_by_yx (PipeMap.ofData demo_map_data).get_all_pipe_points = some ⟨0, 0⟩
    ∧ (PipeMap.ofData demo_map_data).is_pipe_point ⟨0, 0⟩ :=
  ⟨by decide,
   (c1_auto_inspect demo_map_data (by decide) fresh_state (fun _ => 100) (50, 120)
      rfl rfl ⟨0, 0⟩ (by decide)).1⟩
